import Mathlib

/-!
Shallow embedding of the gesture/reorder engine of Slip.js 1.2.0 as vendored by
react-slipmove (`src/slip.js`).  JS numbers are modelled as rationals, DOM node
references as natural-number ids, and the dynamically dispatched state handlers
as explicit data.  Each definition is translated from the named source function.
-/

namespace Slip

/-- One entry of the Sibling Snapshot Set built in `reorderStateInit`
(`otherNodes.push({node: ..., pos: ...})`): the sibling's node (as an id)
and its signed `pos` value. -/
structure SnapEntry where
  node : Nat
  pos : ℚ
deriving DecidableEq

/-- The upward scan of `reorderStateInit.onEnd`:
`for (i=0; i < otherNodes.length; i++) { if (otherNodes[i].pos > move.y) break; }`,
`spliceIndex = i`.  Returns the loop counter at the break (the list length when the
loop runs out). -/
def upScan (pos : List ℚ) (d : ℚ) : Nat :=
  match pos with
  | [] => 0
  | p :: rest => if p > d then 0 else upScan rest d + 1

/-- The backward scan of `reorderStateInit.onEnd`:
`for (i=otherNodes.length-1; i >= 0; i--) { if (otherNodes[i].pos < move.y) break; }`.
`downScan pos d n` is the value of `i` when the loop, started at `i = n-1`, stops:
the largest `i < n` with `pos[i] < d`, or `-1` when the loop exhausts. -/
def downScan (pos : List ℚ) (d : ℚ) : Nat → Int
  | 0 => -1
  | n+1 => if pos.getD n 0 < d then (n : Int) else downScan pos d n

/-- The Reorder Index Calculator of `reorderStateInit.onEnd`: branches on
`move.y < 0`; the upward branch takes the break index, the downward branch
takes `i + 1` (which is `0` when `i` ended at `-1`). -/
def spliceIndex (pos : List ℚ) (d : ℚ) : Nat :=
  if d < 0 then upScan pos d
  else (downScan pos d pos.length + 1).toNat

/-- Modelled from the spec's words for the Reorder Index Calculator (§4.1 `onEnd`),
to be compared with `spliceIndex`: "if displacement is negative, find the first
sibling (in original order) whose `pos` exceeds the displacement — its index is the
splice index; if no such sibling exists, the splice index is the sibling count"
(`List.findIdx` returns the length when nothing matches), and "if displacement is
non-negative, scan from the last sibling backward for the last one whose `pos` is
less than the displacement; splice index is one past it (or 0 if none qualifies)":
scanning backward is scanning `pos.reverse` forward; a hit at reverse-position `j`
is original index `length - 1 - j`, one past it is `length - j`, and a miss
(`findIdx = length`) gives `0`. -/
def spliceIndexSpec (pos : List ℚ) (d : ℚ) : Nat :=
  if d < 0 then pos.findIdx (fun q => decide (q > d))
  else pos.length - pos.reverse.findIdx (fun q => decide (q < d))

/-- The `slip:reorder` payload. -/
structure ReorderDetail where
  spliceIndex : Nat
  originalIndex : Nat
  insertBefore : Option Nat
deriving DecidableEq

/-- The payload assembled by `reorderStateInit.onEnd`:
`{spliceIndex, originalIndex, insertBefore: otherNodes[spliceIndex] ? otherNodes[spliceIndex].node : null}`
(an out-of-bounds JS index is `undefined`, hence `null`). -/
def reorderOnEnd (otherNodes : List SnapEntry) (originalIndex : Nat) (moveY : ℚ) :
    ReorderDetail :=
  let si := spliceIndex (otherNodes.map SnapEntry.pos) moveY
  { spliceIndex := si
    originalIndex := originalIndex
    insertBefore := (otherNodes[si]?).map SnapEntry.node }

/-- A DOM child node of the list container, reduced to what the reorder code
reads: an identity (standing for the JS object reference), `nodeType`
(`1` = element), `offsetTop` and `offsetHeight`. -/
structure ChildNode where
  id : Nat
  nodeType : Nat
  offsetTop : ℚ
  offsetHeight : ℚ
deriving DecidableEq

/-- `this.target.height` as measured in `reorderStateInit`:
`node.offsetHeight + Math.max(parseInt(marginTop), parseInt(marginBottom))`. -/
def targetHeight (offsetHeight marginTop marginBottom : ℚ) : ℚ :=
  offsetHeight + max marginTop marginBottom

/-- The zero point of `reorderStateInit`: `node.offsetTop + this.target.height/2`. -/
def zeroPoint (offsetTop height : ℚ) : ℚ := offsetTop + height / 2

/-- A sibling's snapshot `pos` in `reorderStateInit`:
`t + (t < zero ? nodes[i].offsetHeight : 0) - zero` with `t = nodes[i].offsetTop`. -/
def snapPos (zero : ℚ) (n : ChildNode) : ℚ :=
  n.offsetTop + (if n.offsetTop < zero then n.offsetHeight else 0) - zero

/-- The element test used throughout the source: `nodes[i].nodeType === 1`. -/
def isElem (n : ChildNode) : Bool := n.nodeType == 1

/-- The Sibling Snapshot Set loop of `reorderStateInit`: skip non-elements
(`nodes[i].nodeType !== 1`) and the dragged node, push node + `pos` for the
rest, in document order. -/
def makeSnapshot (nodes : List ChildNode) (draggedId : Nat) (zero : ℚ) :
    List SnapEntry :=
  (nodes.filter (fun n => isElem n && n.id != draggedId)).map
    (fun n => { node := n.id, pos := snapPos zero n })

/-- The accumulator loop of `findIndex`, threading `originalIndex` and
`listCount`; on an element whose node is the target, `originalIndex` becomes
`listCount-1` measured after the `listCount++`, i.e. the pre-increment
`listCount`. -/
def findIndexAux (targetId : Nat) : List ChildNode → Nat → Nat → Nat
  | [], originalIndex, _ => originalIndex
  | n :: rest, originalIndex, listCount =>
    if isElem n then
      findIndexAux targetId rest
        (if n.id = targetId then listCount else originalIndex) (listCount + 1)
    else
      findIndexAux targetId rest originalIndex listCount

/-- `findIndex(target, nodes)`: the dragged node's index among element-type
children. -/
def findIndex (targetId : Nat) (nodes : List ChildNode) : Nat :=
  findIndexAux targetId nodes 0 0

/-- The container children of the spec's §8 scenario: 5 element siblings of
equal height `H` stacked at offsets `0, H, 2H, 3H, 4H`; ids are the original
indices; the item at index 2 is the dragged one. -/
def fiveNodes (H : ℚ) : List ChildNode :=
  [⟨0, 1, 0, H⟩, ⟨1, 1, H, H⟩, ⟨2, 1, 2*H, H⟩, ⟨3, 1, 3*H, H⟩, ⟨4, 1, 4*H, H⟩]

/-! ### The transition engine (`setState`)

`setState(newStateCtor)` early-returns when the active state was built by the
same constructor, runs the outgoing state's optional `leaveState`, runs the new
constructor (whose body may synchronously call `setState` again), and commits
the returned record only when the active-state reference is still the one
captured before the constructor ran.  JS function/object references are
modelled as numeric ids: each committed state record gets a fresh `refId`, and
constructors are compared by `cid`.  A constructor is modelled by its id,
whether the record it returns carries a `leaveState` handler, and the (at most
one, as in the source states) synchronous `setState` request its body makes.
Entry/leave handler executions are recorded in an observable log.  Recursion is
fuelled; every scenario proved below consumes strictly less fuel than supplied. -/

/-- A state constructor: its identity, whether its returned record has a
`leaveState` handler, and the synchronous transition request (if any) its body
performs, as in `undecidedStateInit` calling `this.setState(this.states.reorder)`. -/
inductive Ctor where
  | mk (cid : Nat) (hasLeave : Bool) (call : Option Ctor)

/-- Constructor identity (stands for JS reference equality of the constructor
functions). -/
def Ctor.cid : Ctor → Nat
  | .mk c _ _ => c

/-- Whether the record returned by this constructor has a `leaveState`. -/
def Ctor.hasLeave : Ctor → Bool
  | .mk _ h _ => h

/-- The synchronous `setState` request performed inside the constructor body. -/
def Ctor.call : Ctor → Option Ctor
  | .mk _ _ k => k

/-- An active-state record (`this.state`): its object identity (`refId`, fresh
per commit, standing for JS reference equality of the record), the `ctor`
field assigned at commit, and whether it carries a `leaveState`. -/
structure StateRec where
  refId : Nat
  cid : Nat
  hasLeave : Bool
deriving DecidableEq

/-- Observable handler executions. -/
inductive EngineEvent where
  | enter (cid : Nat)
  | leave (cid : Nat)
deriving DecidableEq

/-- The engine fields read and written by `setState`. -/
structure Engine where
  state : Option StateRec
  nextRef : Nat
  log : List EngineEvent
deriving DecidableEq

/-- `if (this.state.leaveState) this.state.leaveState.call(this);` — running the
outgoing state's `leaveState` (none of the source `leaveState` handlers touches
`this.state` synchronously, so only the log changes). -/
def postLeave (s : StateRec) (e : Engine) : Engine :=
  if s.hasLeave then { e with log := e.log ++ [EngineEvent.leave s.cid] } else e

/-- The observable start of a constructor body running. -/
def logEnter (c : Ctor) (e : Engine) : Engine :=
  { e with log := e.log ++ [EngineEvent.enter c.cid] }

/-- `setState(newStateCtor)` translated line by line: early return on same
`ctor`; `leaveState`; capture `prevState`; run the constructor body (which may
recursively transition); allocate the returned record; commit it only if
`this.state === prevState` still holds. -/
def setStateF : Nat → Ctor → Engine → Engine
  | 0, _, e => e
  | fuel+1, c, e =>
    match e.state with
    | some s =>
      if s.cid = c.cid then e
      else
        let e1 := postLeave s e
        let e2 :=
          match c.call with
          | some inner => setStateF fuel inner (logEnter c e1)
          | none => logEnter c e1
        if e2.state = e1.state then
          { e2 with state := some ⟨e2.nextRef, c.cid, c.hasLeave⟩, nextRef := e2.nextRef + 1 }
        else
          { e2 with nextRef := e2.nextRef + 1 }
    | none =>
      let e2 :=
        match c.call with
        | some inner => setStateF fuel inner (logEnter c e)
        | none => logEnter c e
      if e2.state = none then
        { e2 with state := some ⟨e2.nextRef, c.cid, c.hasLeave⟩, nextRef := e2.nextRef + 1 }
      else
        { e2 with nextRef := e2.nextRef + 1 }

/-- The "entry function runs" slice of `setStateF`: `newStateCtor.call(this)`,
including any synchronous transition the body performs. -/
def entryPhase (fuel : Nat) (c : Ctor) (e : Engine) : Engine :=
  match c.call with
  | some inner => setStateF fuel inner (logEnter c e)
  | none => logEnter c e

/-- `idleStateInit` makes no synchronous transition and returns a record with
no `leaveState`. -/
def idleCtor : Ctor := Ctor.mk 0 false none

/-- `this.cancel = this.setState.bind(this, this.states.idle)`.  Fuel 1 is
exact: the idle constructor performs no nested transition. -/
def cancel (e : Engine) : Engine := setStateF 1 idleCtor e

/-! ### The `undecided` state handlers and `updatePosition` -/

/-- The three FSM states. -/
inductive StateId where
  | idle
  | undecided
  | reorder
deriving DecidableEq

/-- A `{x, y}` movement vector. -/
structure Movement where
  x : ℚ
  y : ℚ
deriving DecidableEq

/-- `getAbsoluteMovement` (magnitudes only; the direction labels are not read
by any claim). -/
def getAbsoluteMovement (m : Movement) : Movement := ⟨|m.x|, |m.y|⟩

/-- What a state's `onMove` handler produces: the state the engine is in
afterwards and the handler's return value (`none` = JS `undefined`). -/
structure MoveOutcome where
  nextState : StateId
  result : Option Bool
deriving DecidableEq

/-- `undecidedStateInit`'s `onMove` handler, on the current total movement:
recompute absolute movement; `if (move.y > 20) this.setState(this.states.idle);`
then `if (move.x > move.y*1.2) return false;`. -/
def undecidedOnMove (total : Movement) : MoveOutcome :=
  let move := getAbsoluteMovement total
  let st := if move.y > 20 then StateId.idle else StateId.undecided
  if move.x > move.y * 1.2 then ⟨st, some false⟩ else ⟨st, none⟩

/-- `updatePosition`'s check on the handler's return value:
`if (this.state.onMove.call(this) === false) e.preventDefault();` —
a `false` return makes the engine prevent the browser default. -/
def resultPreventsDefault (r : Option Bool) : Bool := r == some false

/-- The `slip:`-prefixed intents dispatched by the engine. -/
inductive IntentKind where
  | beforewait
  | beforereorder
  | tap
  | reorderDone
deriving DecidableEq

/-- Which node a dispatch is aimed at (`this.target.originalTarget` or
`this.target.node`). -/
inductive DispatchTarget where
  | originalTarget
  | node
deriving DecidableEq

/-- The observable outcome of `undecidedStateInit`'s entry decision or of the
hold timer firing: the intents dispatched (in order, with their targets), the
transition requested, and the delay of the timer armed (if any). -/
structure UndecidedEntryOut where
  dispatched : List (IntentKind × DispatchTarget)
  toState : Option StateId
  timerDelay : Option Nat
deriving DecidableEq

/-- The dispatch decision at the top of `undecidedStateInit`, parameterised by
the listener responses (`dispatch` returns `false` when a listener prevented
the default, i.e. rejected the intent):
`if (!this.dispatch(this.target.originalTarget, 'beforewait')) { if (this.dispatch(this.target.originalTarget, 'beforereorder')) this.setState(this.states.reorder); } else { holdTimer = setTimeout(..., 300); }`. -/
def undecidedEntryDecision (bwAllowed brAllowed : Bool) : UndecidedEntryOut :=
  if !bwAllowed then
    let dispatched := [(IntentKind.beforewait, DispatchTarget.originalTarget),
                       (IntentKind.beforereorder, DispatchTarget.originalTarget)]
    if brAllowed then ⟨dispatched, some StateId.reorder, none⟩
    else ⟨dispatched, none, none⟩
  else
    ⟨[(IntentKind.beforewait, DispatchTarget.originalTarget)], none, some 300⟩

/-- The hold timer callback of `undecidedStateInit`:
`if (this.canPreventScrolling && move.x < 15 && move.y < 25) { if (this.dispatch(this.target.originalTarget, 'beforereorder')) this.setState(this.states.reorder); }`. -/
def holdTimerFire (canPreventScrolling : Bool) (total : Movement) (brAllowed : Bool) :
    UndecidedEntryOut :=
  let move := getAbsoluteMovement total
  if canPreventScrolling = true ∧ move.x < 15 ∧ move.y < 25 then
    if brAllowed then
      ⟨[(IntentKind.beforereorder, DispatchTarget.originalTarget)], some StateId.reorder, none⟩
    else
      ⟨[(IntentKind.beforereorder, DispatchTarget.originalTarget)], none, none⟩
  else ⟨[], none, none⟩

/-- An `{x, y, time}` position sample. -/
structure Sample where
  x : ℚ
  y : ℚ
  time : ℚ
deriving DecidableEq

/-- The engine fields read and written by `updatePosition`: the session target
(`none` = no active gesture), the active state, and the three position
samples. -/
structure PosEngine where
  target : Option Nat
  stateId : StateId
  startPosition : Option Sample
  latestPosition : Option Sample
  previousPosition : Option Sample
deriving DecidableEq

/-- `updatePosition(e, pos)` translated line by line; the active state's
`onMove` handler is passed in explicitly (it is dynamically dispatched in the
source), returning the updated engine and its return value.  The returned
`Bool` is whether `e.preventDefault()` was called.  (When the guard passes,
the source reads `latestPosition.time` and `previousPosition.time` without a
null check; the catch-all match arm below is unreachable in that situation
because `latestPosition` was just assigned and `previousPosition` is set for
the whole life of a session.) -/
def updatePosition (onMove : Option (PosEngine → PosEngine × Option Bool))
    (pos : Sample) (e : PosEngine) : PosEngine × Bool :=
  if e.target = none then (e, false)
  else
    let e1 := { e with latestPosition := some pos }
    let stepped :=
      match onMove with
      | some f => f e1
      | none => (e1, none)
    let prevented := stepped.2 == some false
    let e2 := stepped.1
    let e3 :=
      match e2.latestPosition, e2.previousPosition with
      | some l, some p =>
        if l.time - p.time > 100 then { e2 with previousPosition := e2.latestPosition }
        else e2
      | _, _ => e2
    (e3, prevented)

/-! ### Concrete inputs used by the witnesses -/

/-- A concrete engine: active state built by constructor 1, no `leaveState`. -/
def wEngine : Engine := ⟨some ⟨0, 1, false⟩, 1, []⟩

/-- The active-state record of `wEngine`. -/
def wStateRec : StateRec := ⟨0, 1, false⟩

/-- A constructor (id 2) whose body synchronously transitions to a constructor
with id 3, like `undecidedStateInit` transitioning to `reorder`. -/
def wCtor : Ctor := Ctor.mk 2 false (some (Ctor.mk 3 false none))

/-- A position-engine with no active session. -/
def wPosEngine : PosEngine := ⟨none, StateId.undecided, none, none, none⟩

/-- A concrete position sample. -/
def wSample : Sample := ⟨1, 2, 3⟩

/-- An `onMove` handler that would report `false` (prevent default) and would
leave the engine unchanged, used to observe that it is never invoked. -/
def wOnMove : PosEngine → PosEngine × Option Bool := fun e => (e, some false)

/-! ### Lemmas about the two scans -/

theorem upScan_eq_findIdx (l : List ℚ) (d : ℚ) :
    upScan l d = l.findIdx (fun q => decide (q > d)) := by
  induction l with
  | nil => rfl
  | cons p rest ih =>
    by_cases h : p > d <;> simp [upScan, List.findIdx_cons, h, ih]

theorem downScan_append (l : List ℚ) (x d : ℚ) :
    ∀ n, n ≤ l.length → downScan (l ++ [x]) d n = downScan l d n := by
  intro n
  induction n with
  | zero => intro _; rfl
  | succ m ih =>
    intro hm
    have hml : m < l.length := hm
    simp only [downScan, List.getD_append _ _ _ _ hml]
    exact if_congr Iff.rfl rfl (ih (le_of_lt hml))

theorem downScan_toNat_eq (l : List ℚ) (d : ℚ) :
    (downScan l d l.length + 1).toNat
      = l.length - l.reverse.findIdx (fun q => decide (q < d)) := by
  induction l using List.reverseRecOn with
  | nil => rfl
  | append_singleton xs x ih =>
    have hlen : (xs ++ [x]).length = xs.length + 1 := by simp
    have hget : (xs ++ [x]).getD xs.length 0 = x := by
      simp [List.getD_append_right]
    rw [hlen]
    by_cases hx : x < d
    · simp [downScan, hget, hx, List.findIdx_cons]
    · have h1 : downScan (xs ++ [x]) d (xs.length + 1) = downScan xs d xs.length := by
        simp only [downScan, hget, if_neg hx]
        exact downScan_append xs x d xs.length le_rfl
      have h2 : (xs ++ [x]).reverse.findIdx (fun q => decide (q < d))
          = xs.reverse.findIdx (fun q => decide (q < d)) + 1 := by
        simp [List.findIdx_cons, hx]
      rw [h1, h2, ih, Nat.succ_sub_succ]

/-- The two branch scans of `reorderStateInit.onEnd` compute exactly the splice
index described by the spec. -/
theorem spliceIndex_eq_spec (pos : List ℚ) (d : ℚ) :
    spliceIndex pos d = spliceIndexSpec pos d := by
  unfold spliceIndex spliceIndexSpec
  by_cases h : d < 0
  · simp [h, upScan_eq_findIdx]
  · simp [h, downScan_toNat_eq]

theorem upScan_le_length (l : List ℚ) (d : ℚ) : upScan l d ≤ l.length := by
  induction l with
  | nil => exact le_rfl
  | cons p rest ih =>
    by_cases h : p > d
    · simp [upScan, h]
    · simpa [upScan, h] using Nat.succ_le_succ ih

theorem downScan_add_one_toNat_le (l : List ℚ) (d : ℚ) :
    ∀ n, (downScan l d n + 1).toNat ≤ n := by
  intro n
  induction n with
  | zero => simp [downScan]
  | succ m ih =>
    by_cases h : l.getD m 0 < d
    · simp only [downScan, if_pos h]
      omega
    · simp only [downScan, if_neg h]
      exact le_trans ih (Nat.le_succ m)

/-- `List.findIdx` is antitone in the predicate: a weaker predicate is found
no later. -/
theorem findIdx_mono_pred {α : Type} (p q : α → Bool) (l : List α)
    (h : ∀ a, q a = true → p a = true) : l.findIdx p ≤ l.findIdx q := by
  induction l with
  | nil => exact le_rfl
  | cons a t ih =>
    cases hq : q a with
    | true => simp [List.findIdx_cons, hq, h a hq]
    | false =>
      cases hp : p a with
      | true => simp [List.findIdx_cons, hp, hq]
      | false => simpa [List.findIdx_cons, hp, hq] using ih

/-- `List.findIdx` is bounded by any index carrying a witness. -/
theorem findIdx_le_of_getElem {α : Type} {p : α → Bool} {l : List α} {i : Nat}
    (hi : i < l.length) (hp : p l[i] = true) : l.findIdx p ≤ i := by
  by_contra hlt
  push_neg at hlt
  exact absurd hp (by simp [List.not_of_lt_findIdx hlt])

/-- If the predicate of the forward scan fails at an index, the predicate of
the backward scan holds there, so the two break points cannot cross. -/
theorem findIdx_reverse_bound {α : Type} (p q : α → Bool) (l : List α)
    (himp : ∀ i (hi : i < l.length), p l[i] = false → q l[i] = true) :
    l.findIdx p ≤ l.length - l.reverse.findIdx q := by
  rcases Nat.eq_zero_or_pos (l.findIdx p) with hk0 | hkpos
  · simp [hk0]
  · have hklen : l.findIdx p ≤ l.length := List.findIdx_le_length p
    have hk1 : l.findIdx p - 1 < l.findIdx p := Nat.sub_lt hkpos one_pos
    have hk1len : l.findIdx p - 1 < l.length := lt_of_lt_of_le hk1 hklen
    have hfail : p l[l.findIdx p - 1] = false := List.not_of_lt_findIdx hk1
    have hq : q l[l.findIdx p - 1] = true := himp _ hk1len hfail
    have hr : l.length - l.findIdx p < l.reverse.length := by
      rw [List.length_reverse]; omega
    have hrel : l.reverse[l.length - l.findIdx p] = l[l.findIdx p - 1] := by
      rw [List.getElem_reverse]
      congr 1
      omega
    have hjr : l.reverse.findIdx q ≤ l.length - l.findIdx p :=
      findIdx_le_of_getElem hr (by rw [hrel]; exact hq)
    omega

/-! ### Lemmas about `findIndex` and `makeSnapshot` -/

theorem findIndexAux_noMatch (t : Nat) (l : List ChildNode) :
    ∀ oi lc, (∀ n ∈ l, isElem n = true → n.id ≠ t) → findIndexAux t l oi lc = oi := by
  induction l with
  | nil => intro oi lc _; rfl
  | cons n rest ih =>
    intro oi lc h
    by_cases he : isElem n = true
    · have hne : n.id ≠ t := h n (List.mem_cons_self n rest) he
      simp only [findIndexAux, he, if_true, if_neg hne]
      exact ih oi (lc + 1) (fun m hm him => h m (List.mem_cons_of_mem n hm) him)
    · simp only [findIndexAux, he, if_false, Bool.false_eq_true]
      exact ih oi lc (fun m hm him => h m (List.mem_cons_of_mem n hm) him)

theorem findIndexAux_append (t : Nat) (l : List ChildNode) :
    ∀ (rest : List ChildNode) (oi lc : Nat),
      (∀ n ∈ l, isElem n = true → n.id ≠ t) →
      findIndexAux t (l ++ rest) oi lc
        = findIndexAux t rest oi (lc + (l.filter isElem).length) := by
  induction l with
  | nil => intro rest oi lc _; simp [List.filter]
  | cons n l ih =>
    intro rest oi lc h
    by_cases he : isElem n = true
    · have hne : n.id ≠ t := h n (List.mem_cons_self n l) he
      simp only [List.cons_append, findIndexAux, he, if_true, if_neg hne, List.append_eq]
      rw [ih rest oi (lc + 1) (fun m hm him => h m (List.mem_cons_of_mem n hm) him)]
      have harith : lc + 1 + (l.filter isElem).length
          = lc + ((n :: l).filter isElem).length := by
        simp [List.filter_cons, he]
        omega
      rw [harith]
    · simp only [List.cons_append, findIndexAux, he, if_false, Bool.false_eq_true,
        List.append_eq]
      rw [ih rest oi lc (fun m hm him => h m (List.mem_cons_of_mem n hm) him)]
      have harith : lc + (l.filter isElem).length
          = lc + ((n :: l).filter isElem).length := by
        simp [List.filter_cons, he]
      rw [harith]

/-- The dragged node's `findIndex` is the number of element siblings before it. -/
theorem findIndex_split (pre post : List ChildNode) (dn : ChildNode)
    (hdn : isElem dn = true)
    (hpre : ∀ n ∈ pre, isElem n = true → n.id ≠ dn.id)
    (hpost : ∀ n ∈ post, isElem n = true → n.id ≠ dn.id) :
    findIndex dn.id (pre ++ dn :: post) = (pre.filter isElem).length := by
  unfold findIndex
  rw [findIndexAux_append dn.id pre (dn :: post) 0 0 hpre]
  simp only [findIndexAux, hdn, if_true, if_pos rfl]
  rw [findIndexAux_noMatch dn.id post _ _ hpost]
  omega

theorem makeSnapshot_split (pre post : List ChildNode) (dn : ChildNode) (zero : ℚ)
    (hpre : ∀ n ∈ pre, isElem n = true → n.id ≠ dn.id)
    (hpost : ∀ n ∈ post, isElem n = true → n.id ≠ dn.id) :
    makeSnapshot (pre ++ dn :: post) dn.id zero
      = (pre.filter isElem).map (fun n => { node := n.id, pos := snapPos zero n })
        ++ (post.filter isElem).map (fun n => { node := n.id, pos := snapPos zero n }) := by
  unfold makeSnapshot
  rw [List.filter_append, List.filter_cons]
  have hdrop : (isElem dn && dn.id != dn.id) = false := by simp
  rw [hdrop]
  have h1 : pre.filter (fun n => isElem n && n.id != dn.id) = pre.filter isElem :=
    List.filter_congr (fun n hn => by
      by_cases he : isElem n = true
      · simp [he, hpre n hn he]
      · simp [he])
  have h2 : post.filter (fun n => isElem n && n.id != dn.id) = post.filter isElem :=
    List.filter_congr (fun n hn => by
      by_cases he : isElem n = true
      · simp [he, hpost n hn he]
      · simp [he])
  rw [h1, h2, List.map_append]
  simp

theorem findIdx_append_all_false {α : Type} (p : α → Bool) (l₁ l₂ : List α)
    (h : ∀ a ∈ l₁, p a = false) :
    (l₁ ++ l₂).findIdx p = l₁.length + l₂.findIdx p := by
  induction l₁ with
  | nil => simp
  | cons a l ih =>
    have ha : p a = false := h a (List.mem_cons_self a l)
    simp only [List.cons_append, List.findIdx_cons, ha, cond_false]
    rw [ih (fun b hb => h b (List.mem_cons_of_mem a hb))]
    simp only [List.length_cons]
    omega

/-- At zero displacement, a snapshot whose entries split into a negative-`pos`
prefix and a positive-`pos` suffix splices exactly at the split point. -/
theorem spliceIndex_zero_split (above below : List ℚ)
    (ha : ∀ q ∈ above, q < 0) (hb : ∀ q ∈ below, 0 < q) :
    spliceIndex (above ++ below) 0 = above.length := by
  rw [spliceIndex_eq_spec]
  unfold spliceIndexSpec
  rw [if_neg (lt_irrefl 0), List.reverse_append]
  have hbrev : ∀ q ∈ below.reverse, (fun q => decide (q < (0:ℚ))) q = false := by
    intro q hq
    simp only [decide_eq_false_iff_not, not_lt]
    exact le_of_lt (hb q (List.mem_reverse.mp hq))
  rw [findIdx_append_all_false _ _ _ hbrev]
  rcases List.eq_nil_or_concat above with rfl | ⟨L, b, rfl⟩
  · simp
  · have hbneg : b < 0 := ha b (by simp)
    have hrev : (L.concat b).reverse = b :: L.reverse := by
      simp
    rw [hrev, List.findIdx_cons]
    simp [hbneg]
    omega

/-! ### Claim theorems for the Reorder Index Calculator -/

/-- Claim C1: for every frozen Sibling Snapshot Set (list of `pos` values in
original sibling order) and every signed vertical displacement `d`, the Reorder
Index Calculator returns: if `d < 0`, the index of the first sibling whose
`pos` is strictly greater than `d` (or the sibling count if no sibling
qualifies); if `d ≥ 0`, one plus the index of the last sibling whose `pos` is
strictly less than `d` (or `0` if no sibling qualifies).  `spliceIndexSpec` is
that description written out; the two agree on every input. -/
theorem reorder_index_calculator_correct (pos : List ℚ) (d : ℚ) :
    spliceIndex pos d = spliceIndexSpec pos d :=
  spliceIndex_eq_spec pos d

/-- Claim C3: for a fixed Sibling Snapshot Set, the splice index returned by
the Reorder Index Calculator is non-decreasing in the net vertical
displacement. -/
theorem reorder_index_monotone (pos : List ℚ) (d1 d2 : ℚ) (h : d1 ≤ d2) :
    spliceIndex pos d1 ≤ spliceIndex pos d2 := by
  rw [spliceIndex_eq_spec, spliceIndex_eq_spec]
  unfold spliceIndexSpec
  by_cases h1 : d1 < 0 <;> by_cases h2 : d2 < 0
  · rw [if_pos h1, if_pos h2]
    refine findIdx_mono_pred _ _ _ (fun a ha => ?_)
    simp only [decide_eq_true_eq, gt_iff_lt] at ha ⊢
    linarith
  · rw [if_pos h1, if_neg h2]
    refine findIdx_reverse_bound _ _ _ (fun i hi hp => ?_)
    simp only [decide_eq_false_iff_not, gt_iff_lt, not_lt] at hp
    simp only [decide_eq_true_eq]
    have h2' : (0:ℚ) ≤ d2 := not_lt.mp h2
    linarith
  · exact absurd (lt_of_le_of_lt h h2) h1
  · rw [if_neg h1, if_neg h2]
    refine Nat.sub_le_sub_left ?_ _
    refine findIdx_mono_pred _ _ _ (fun a ha => ?_)
    simp only [decide_eq_true_eq] at ha ⊢
    linarith

/-- Witness for C3 at a concrete snapshot and displacement pair. -/
theorem reorder_index_monotone_witness :
    (-2 : ℚ) ≤ 1 ∧ spliceIndex [-3, -1, 1, 3] (-2) ≤ spliceIndex [-3, -1, 1, 3] 1 :=
  ⟨by norm_num, reorder_index_monotone [-3, -1, 1, 3] (-2) 1 (by norm_num)⟩

/-- Claim C5: for every Sibling Snapshot Set with `n` siblings and every
displacement whatsoever, the splice index lies in `[0, n]` — the scans clamp
by running out, not by explicit clamping. -/
theorem reorder_index_in_range (pos : List ℚ) (d : ℚ) :
    0 ≤ spliceIndex pos d ∧ spliceIndex pos d ≤ pos.length := by
  refine ⟨Nat.zero_le _, ?_⟩
  unfold spliceIndex
  by_cases h : d < 0
  · simpa [h] using upScan_le_length pos d
  · simpa [h] using downScan_add_one_toNat_le pos d pos.length

/-- Claim C2: for a gesture ending with net vertical displacement `0`, when
every element sibling before the dragged node has negative snapshot `pos` and
every element sibling after it has positive snapshot `pos`, the splice index
equals the dragged node's original index among element siblings (`findIndex`),
and `insertBefore` is the element sibling originally immediately following the
dragged node (`null` when the dragged node was last). -/
theorem reorder_zero_displacement (pre post : List ChildNode) (dn : ChildNode)
    (zero : ℚ)
    (hdn : isElem dn = true)
    (hpre : ∀ n ∈ pre, isElem n = true → n.id ≠ dn.id)
    (hpost : ∀ n ∈ post, isElem n = true → n.id ≠ dn.id)
    (hneg : ∀ n ∈ pre, isElem n = true → snapPos zero n < 0)
    (hposi : ∀ n ∈ post, isElem n = true → 0 < snapPos zero n) :
    reorderOnEnd (makeSnapshot (pre ++ dn :: post) dn.id zero)
        (findIndex dn.id (pre ++ dn :: post)) 0
      = { spliceIndex := findIndex dn.id (pre ++ dn :: post)
          originalIndex := findIndex dn.id (pre ++ dn :: post)
          insertBefore := ((post.filter isElem).head?).map ChildNode.id } := by
  have hfi := findIndex_split pre post dn hdn hpre hpost
  have hsnap := makeSnapshot_split pre post dn zero hpre hpost
  have hsi : spliceIndex
      ((makeSnapshot (pre ++ dn :: post) dn.id zero).map SnapEntry.pos) 0
      = (pre.filter isElem).length := by
    rw [hsnap, List.map_append, List.map_map, List.map_map]
    have hz := spliceIndex_zero_split
      ((pre.filter isElem).map (SnapEntry.pos ∘ fun n =>
        { node := n.id, pos := snapPos zero n }))
      ((post.filter isElem).map (SnapEntry.pos ∘ fun n =>
        { node := n.id, pos := snapPos zero n }))
      (by
        intro q hq
        obtain ⟨n, hn, rfl⟩ := List.mem_map.mp hq
        obtain ⟨hnmem, hnel⟩ := List.mem_filter.mp hn
        exact hneg n hnmem hnel)
      (by
        intro q hq
        obtain ⟨n, hn, rfl⟩ := List.mem_map.mp hq
        obtain ⟨hnmem, hnel⟩ := List.mem_filter.mp hn
        exact hposi n hnmem hnel)
    rw [hz, List.length_map]
  have hib : ((makeSnapshot (pre ++ dn :: post) dn.id zero)[
        (pre.filter isElem).length]?).map SnapEntry.node
      = ((post.filter isElem).head?).map ChildNode.id := by
    rw [hsnap, List.getElem?_append_right (by rw [List.length_map])]
    rw [List.length_map, Nat.sub_self, ← List.head?_eq_getElem?,
      List.head?_map, Option.map_map]
    rfl
  simp only [reorderOnEnd]
  rw [hsi, hfi, hib]

/-- Witness for C2: three element siblings, the middle one dragged; its
snapshot splits into one negative and one positive `pos`. -/
theorem reorder_zero_displacement_witness :
    (∀ n ∈ [(⟨0, 1, 0, 2⟩ : ChildNode)], isElem n = true → snapPos 3 n < 0) ∧
    (∀ n ∈ [(⟨2, 1, 4, 2⟩ : ChildNode)], isElem n = true → 0 < snapPos 3 n) ∧
    reorderOnEnd
        (makeSnapshot [⟨0, 1, 0, 2⟩, ⟨1, 1, 2, 2⟩, ⟨2, 1, 4, 2⟩] 1 3)
        (findIndex 1 [⟨0, 1, 0, 2⟩, ⟨1, 1, 2, 2⟩, ⟨2, 1, 4, 2⟩]) 0
      = { spliceIndex := findIndex 1 [⟨0, 1, 0, 2⟩, ⟨1, 1, 2, 2⟩, ⟨2, 1, 4, 2⟩]
          originalIndex := findIndex 1 [⟨0, 1, 0, 2⟩, ⟨1, 1, 2, 2⟩, ⟨2, 1, 4, 2⟩]
          insertBefore := (([(⟨2, 1, 4, 2⟩ : ChildNode)].filter isElem).head?).map
            ChildNode.id } := by
  refine ⟨?_, ?_, ?_⟩
  · intro n hn _
    simp only [List.mem_singleton] at hn
    subst hn
    norm_num [snapPos]
  · intro n hn _
    simp only [List.mem_singleton] at hn
    subst hn
    norm_num [snapPos]
  · exact reorder_zero_displacement [⟨0, 1, 0, 2⟩] [⟨2, 1, 4, 2⟩] ⟨1, 1, 2, 2⟩ 3
      (by decide)
      (by intro n hn _; simp only [List.mem_singleton] at hn; subst hn; decide)
      (by intro n hn _; simp only [List.mem_singleton] at hn; subst hn; decide)
      (by intro n hn _; simp only [List.mem_singleton] at hn; subst hn;
          norm_num [snapPos])
      (by intro n hn _; simp only [List.mem_singleton] at hn; subst hn;
          norm_num [snapPos])

/-- Counterexample to claim C4 as stated: in the 5-sibling scenario with
`H = 2` (snapshot `pos` values `-3, -1, 1, 3`) and displacement exactly
`-1.5·H = -3`, the upward scan does not break at the first sibling (its `pos`
equals the displacement and the comparison is strict), so the splice index is
not `0` and `insertBefore` is not the sibling originally at index 0. -/
theorem five_sibling_scenario_claim_false :
    ¬ ((reorderOnEnd
          (makeSnapshot (fiveNodes 2) 2 (zeroPoint (2*2) (targetHeight 2 0 0)))
          (findIndex 2 (fiveNodes 2)) (-(3*2/2))).spliceIndex = 0
        ∧ (reorderOnEnd
          (makeSnapshot (fiveNodes 2) 2 (zeroPoint (2*2) (targetHeight 2 0 0)))
          (findIndex 2 (fiveNodes 2)) (-(3*2/2))).insertBefore = some 0) := by
  have hval : reorderOnEnd
      (makeSnapshot (fiveNodes 2) 2 (zeroPoint (2*2) (targetHeight 2 0 0)))
      (findIndex 2 (fiveNodes 2)) (-(3*2/2))
      = { spliceIndex := 1, originalIndex := 2, insertBefore := some 1 } := by
    norm_num [reorderOnEnd, makeSnapshot, fiveNodes, snapPos, zeroPoint,
      targetHeight, isElem, findIndex, findIndexAux, spliceIndex, upScan]
  rw [hval]
  simp

/-- Claim C4 (amended): in the 5-sibling scenario (equal height `H`, dragged
item at original index 2, snapshot `pos` values `-3H/2, -H/2, H/2, 3H/2`),
ending the drag at net displacement exactly `-1.5·H` yields splice index `1`
(not `0`: the first sibling's `pos` equals the displacement, and the break
comparison is strict), and `insertBefore` is the sibling originally at
index 1 (not index 0). -/
theorem five_sibling_scenario (H : ℚ) (hH : 0 < H) :
    reorderOnEnd
        (makeSnapshot (fiveNodes H) 2 (zeroPoint (2*H) (targetHeight H 0 0)))
        (findIndex 2 (fiveNodes H)) (-(3*H/2))
      = { spliceIndex := 1, originalIndex := 2, insertBefore := some 1 } := by
  have hz : zeroPoint (2*H) (targetHeight H 0 0) = 5*H/2 := by
    simp [zeroPoint, targetHeight]
    ring
  rw [hz]
  have h0 : (0:ℚ) < 5*H/2 := by linarith
  have h1 : H < 5*H/2 := by linarith
  have h3 : ¬ (3*H < 5*H/2) := by intro hc; linarith
  have h4 : ¬ (4*H < 5*H/2) := by intro hc; linarith
  have hsnap : makeSnapshot (fiveNodes H) 2 (5*H/2)
      = [⟨0, -(3*H/2)⟩, ⟨1, -(H/2)⟩, ⟨3, H/2⟩, ⟨4, 3*H/2⟩] := by
    simp [makeSnapshot, fiveNodes, isElem, snapPos, h0, h1, h3, h4]
    refine ⟨by ring, by ring, by ring, by ring⟩
  have hfi : findIndex 2 (fiveNodes H) = 2 := by
    simp [findIndex, findIndexAux, fiveNodes, isElem]
  have hd : -(3*H/2) < (0:ℚ) := by linarith
  have hc1 : ¬ (-(3*H/2) > -(3*H/2)) := lt_irrefl _
  have hc2 : -(H/2) > -(3*H/2) := by linarith
  have hup : spliceIndex [-(3*H/2), -(H/2), H/2, 3*H/2] (-(3*H/2)) = 1 := by
    simp [spliceIndex, hd, upScan, hc1, hc2]
  rw [hsnap, hfi]
  simp [reorderOnEnd, hup]

/-- Witness for the amended C4 at `H = 2`. -/
theorem five_sibling_scenario_witness :
    (0:ℚ) < 2 ∧ reorderOnEnd
        (makeSnapshot (fiveNodes 2) 2 (zeroPoint (2*2) (targetHeight 2 0 0)))
        (findIndex 2 (fiveNodes 2)) (-(3*2/2))
      = { spliceIndex := 1, originalIndex := 2, insertBefore := some 1 } :=
  ⟨by norm_num, five_sibling_scenario 2 (by norm_num)⟩

/-! ### Lemmas about the transition engine -/

theorem logEnter_state (c : Ctor) (e : Engine) : (logEnter c e).state = e.state := rfl

theorem postLeave_state (s : StateRec) (e : Engine) :
    (postLeave s e).state = e.state := by
  unfold postLeave
  split <;> rfl

/-- Unfolding of `setStateF` past the early return, phrased with `entryPhase`. -/
theorem setStateF_some (fuel : Nat) (c : Ctor) (e : Engine) (s : StateRec)
    (hs : e.state = some s) (hne : s.cid ≠ c.cid) :
    setStateF (fuel+1) c e =
      (if (entryPhase fuel c (postLeave s e)).state = (postLeave s e).state then
        { entryPhase fuel c (postLeave s e) with
          state := some ⟨(entryPhase fuel c (postLeave s e)).nextRef, c.cid, c.hasLeave⟩
          nextRef := (entryPhase fuel c (postLeave s e)).nextRef + 1 }
      else
        { entryPhase fuel c (postLeave s e) with
          nextRef := (entryPhase fuel c (postLeave s e)).nextRef + 1 }) := by
  obtain ⟨st, nr, lg⟩ := e
  have hst : st = some s := hs
  subst hst
  simp only [setStateF, entryPhase, if_neg hne]

/-- Running the idle constructor commits a `cid = 0` record (or early-returns
on an already-`cid = 0` state), so `cancel` always leaves a `cid = 0` state. -/
theorem cancel_cid_zero (e : Engine) :
    ∃ s', (cancel e).state = some s' ∧ s'.cid = 0 := by
  obtain ⟨st, nr, lg⟩ := e
  cases st with
  | none => exact ⟨⟨nr, 0, false⟩, rfl, rfl⟩
  | some s =>
    by_cases h0 : s.cid = 0
    · refine ⟨s, ?_, h0⟩
      have h1 : cancel ⟨some s, nr, lg⟩ = ⟨some s, nr, lg⟩ := by
        simp only [cancel, setStateF]
        rw [if_pos]
        exact h0
      rw [h1]
    · have h1 := setStateF_some 0 idleCtor ⟨some s, nr, lg⟩ s rfl h0
      unfold cancel
      rw [h1]
      rw [if_pos]
      · exact ⟨_, rfl, rfl⟩
      · rw [entryPhase]
        exact logEnter_state idleCtor _

/-- A `cancel` on an engine whose active state has the idle constructor's id
early-returns: the engine is untouched. -/
theorem cancel_early (x : Engine) (s : StateRec) (hx : x.state = some s)
    (h0 : s.cid = 0) : cancel x = x := by
  obtain ⟨st, nr, lg⟩ := x
  have hst : st = some s := hx
  subst hst
  simp only [cancel, setStateF]
  rw [if_pos]
  exact h0

/-! ### Claim theorems for the transition engine -/

/-- Claim C6: for every transition request `setState(S)` that is not the
trivial same-constructor request, if after `S`'s entry function ran the
active-state reference differs from the one held just before the entry
function ran (the entry function itself transitioned), the outer `setState`
does not overwrite it: the active state stays exactly as the inner transition
left it — only the innermost completed transition is committed. -/
theorem setState_innermost_wins (fuel : Nat) (c : Ctor) (e : Engine)
    (s : StateRec) (hs : e.state = some s) (hcid : s.cid ≠ c.cid)
    (hdiff : (entryPhase fuel c (postLeave s e)).state ≠ e.state) :
    (setStateF (fuel+1) c e).state = (entryPhase fuel c (postLeave s e)).state := by
  rw [setStateF_some fuel c e s hs hcid]
  rw [if_neg]
  rw [postLeave_state]
  exact hdiff

/-- Witness for C6: constructor 2's entry synchronously transitions to
constructor 3; the outer transition leaves the inner commit in place. -/
theorem setState_innermost_wins_witness :
    wEngine.state = some wStateRec
    ∧ wStateRec.cid ≠ wCtor.cid
    ∧ (entryPhase 1 wCtor (postLeave wStateRec wEngine)).state ≠ wEngine.state
    ∧ (setStateF 2 wCtor wEngine).state
        = (entryPhase 1 wCtor (postLeave wStateRec wEngine)).state :=
  ⟨rfl, by decide, by decide,
    setState_innermost_wins 1 wCtor wEngine wStateRec rfl (by decide) (by decide)⟩

/-- Claim C9: `cancel()` (a bound `setState(idle)`) is idempotent from every
engine state: the second call is a no-op — it early-returns on the matching
constructor id, running neither the idle entry function nor any `leaveState`
handler, so the observable log gains nothing. -/
theorem cancel_idempotent (e : Engine) :
    cancel (cancel e) = cancel e ∧ (cancel (cancel e)).log = (cancel e).log := by
  obtain ⟨s', hs', h0⟩ := cancel_cid_zero e
  have h := cancel_early (cancel e) s' hs' h0
  exact ⟨h, congrArg Engine.log h⟩

/-! ### Claim theorems for the `undecided` handlers and `updatePosition` -/

/-- Counterexample to claim C7 as stated: at total movement `(31, 25)` the
horizontal branch fires (`31 > 25·1.2`), and the handler returns `false` —
which, by `updatePosition`'s convention (`=== false` ⟹ `e.preventDefault()`),
means the browser default IS prevented, while the claim says it is not; the
state also changes (to `idle`, since `25 > 20`), while the claim says the
state is unchanged. -/
theorem undecided_onMove_claim_false :
    (getAbsoluteMovement ⟨31, 25⟩).x > (getAbsoluteMovement ⟨31, 25⟩).y * 1.2
    ∧ resultPreventsDefault (undecidedOnMove ⟨31, 25⟩).result = true
    ∧ (undecidedOnMove ⟨31, 25⟩).nextState ≠ StateId.undecided := by
  have hx : (getAbsoluteMovement (⟨31, 25⟩ : Movement)).x
      > (getAbsoluteMovement (⟨31, 25⟩ : Movement)).y * 1.2 := by
    norm_num [getAbsoluteMovement]
  have hy : (getAbsoluteMovement (⟨31, 25⟩ : Movement)).y > 20 := by
    norm_num [getAbsoluteMovement]
  refine ⟨hx, ?_, ?_⟩
  · simp [undecidedOnMove, resultPreventsDefault, hx]
  · simp [undecidedOnMove, hx, hy]

/-- Claim C7 (amended): in the `undecided` state, a move whose absolute
vertical component exceeds 20px transitions the engine to `idle`; a move whose
absolute horizontal component exceeds 1.2× the vertical one makes the handler
return `false`, which makes `updatePosition` call `e.preventDefault()` (the
default is prevented, not left alone), and leaves the state unchanged provided
the vertical component does not exceed 20px. -/
theorem undecided_onMove_behavior (total : Movement) :
    ((getAbsoluteMovement total).y > 20 →
      (undecidedOnMove total).nextState = StateId.idle)
    ∧ ((getAbsoluteMovement total).x > (getAbsoluteMovement total).y * 1.2 →
        resultPreventsDefault (undecidedOnMove total).result = true
        ∧ ((getAbsoluteMovement total).y ≤ 20 →
            (undecidedOnMove total).nextState = StateId.undecided)) := by
  constructor
  · intro hy
    by_cases hx : (getAbsoluteMovement total).x > (getAbsoluteMovement total).y * 1.2 <;>
      simp [undecidedOnMove, hy, hx]
  · intro hx
    constructor
    · simp [undecidedOnMove, resultPreventsDefault, hx]
    · intro hy
      have hy' : ¬ ((getAbsoluteMovement total).y > 20) := not_lt.mpr hy
      simp [undecidedOnMove, hx, hy']

/-- Witness for the amended C7 at total movement `(31, 25)`. -/
theorem undecided_onMove_behavior_witness :
    (getAbsoluteMovement ⟨31, 25⟩).y > 20
    ∧ (getAbsoluteMovement ⟨31, 25⟩).x > (getAbsoluteMovement ⟨31, 25⟩).y * 1.2
    ∧ (undecidedOnMove ⟨31, 25⟩).nextState = StateId.idle
    ∧ resultPreventsDefault (undecidedOnMove ⟨31, 25⟩).result = true :=
  ⟨by norm_num [getAbsoluteMovement], by norm_num [getAbsoluteMovement],
    (undecided_onMove_behavior ⟨31, 25⟩).1 (by norm_num [getAbsoluteMovement]),
    ((undecided_onMove_behavior ⟨31, 25⟩).2 (by norm_num [getAbsoluteMovement])).1⟩

/-- Claim C8: on entering `undecided`, a rejected before-wait dispatch makes
the engine immediately dispatch before-reorder to the original event target
(transitioning to `reorder` exactly when that is accepted, and arming no
timer); an accepted before-wait arms the 300ms hold timer instead (dispatching
nothing further and not transitioning); and the timer's firing dispatches
before-reorder — transitioning on acceptance — exactly when scroll prevention
is still possible and absolute movement is under 15px horizontally and 25px
vertically. -/
theorem undecided_entry_behavior (br cps : Bool) (total : Movement) :
    (undecidedEntryDecision false br).dispatched
        = [(IntentKind.beforewait, DispatchTarget.originalTarget),
           (IntentKind.beforereorder, DispatchTarget.originalTarget)]
    ∧ ((undecidedEntryDecision false br).toState = some StateId.reorder ↔ br = true)
    ∧ (undecidedEntryDecision false br).timerDelay = none
    ∧ (undecidedEntryDecision true br).dispatched
        = [(IntentKind.beforewait, DispatchTarget.originalTarget)]
    ∧ (undecidedEntryDecision true br).toState = none
    ∧ (undecidedEntryDecision true br).timerDelay = some 300
    ∧ ((holdTimerFire cps total br).dispatched
          = [(IntentKind.beforereorder, DispatchTarget.originalTarget)]
        ↔ (cps = true ∧ (getAbsoluteMovement total).x < 15
            ∧ (getAbsoluteMovement total).y < 25))
    ∧ ((holdTimerFire cps total br).toState = some StateId.reorder
        ↔ (cps = true ∧ (getAbsoluteMovement total).x < 15
            ∧ (getAbsoluteMovement total).y < 25 ∧ br = true)) := by
  by_cases hx : (getAbsoluteMovement total).x < 15 <;>
    by_cases hy : (getAbsoluteMovement total).y < 25 <;>
      cases br <;> cases cps <;>
        simp [undecidedEntryDecision, holdTimerFire, hx, hy]

/-- Claim C10: a position update arriving while no gesture session is active
(`this.target == null`) returns immediately: the engine — its active state and
all three position samples — is unchanged, no `preventDefault` happens, and
the `onMove` handler (whatever it is, even one that would change everything)
is never consulted. -/
theorem updatePosition_no_session
    (onMove : Option (PosEngine → PosEngine × Option Bool))
    (pos : Sample) (e : PosEngine) (h : e.target = none) :
    updatePosition onMove pos e = (e, false) := by
  unfold updatePosition
  rw [if_pos h]

/-- Witness for C10: a session-less engine with a handler that would prevent
default; `updatePosition` ignores both. -/
theorem updatePosition_no_session_witness :
    wPosEngine.target = none
    ∧ updatePosition (some wOnMove) wSample wPosEngine = (wPosEngine, false) :=
  ⟨rfl, updatePosition_no_session (some wOnMove) wSample wPosEngine rfl⟩

end Slip
